import Mathlib

/-!
Verification development for the cannon-rs differential-testing harness
(crates/mipsevm: ser.rs and evm.rs).

Bytes are modelled as lists of naturals (each byte < 256 where it matters).
The serde data model is shallow: a serialized value is either a string or a
raw byte sequence; deserializing a string from a byte-sequence value fails
with an invalid-type error, as in serde's self-describing formats.
Rust panics (e.g. slice-length mismatch in copy_from_slice, or
B256::from_slice on a slice that is not 32 bytes) are modelled as a distinct
`crashed` outcome, separate from returned errors.
The zlib stream codec (flate2) and the witness codec module (witness.rs,
outside the analyzed sources) are external collaborators: they enter as
explicit function parameters, with their required observable behavior taken
as hypotheses where a claim needs it.
-/

/-- A byte buffer: a list of naturals, each intended to be < 256. -/
abbrev Bytes := List Nat

/- ### Hex encoding (alloy_primitives::hex / const-hex) -/

/-- Value of one hex digit character, accepting 0-9, a-f and A-F, as the
hex decoder's character table does. -/
def hexDigitVal (c : Char) : Option Nat :=
  let n := c.toNat
  if 48 ≤ n ∧ n ≤ 57 then some (n - 48)
  else if 97 ≤ n ∧ n ≤ 102 then some (n - 97 + 10)
  else if 65 ≤ n ∧ n ≤ 70 then some (n - 65 + 10)
  else none

/-- Lowercase hex digit character for a value below 16, as the hex encoder
emits. -/
def hexDigitLower (n : Nat) : Char :=
  Char.ofNat (if n < 10 then 48 + n else 87 + n)

/-- Whether a character is a lowercase hex digit (0-9 or a-f). -/
def isLowerHexDigit (c : Char) : Bool :=
  (48 ≤ c.toNat && c.toNat ≤ 57) || (97 ≤ c.toNat && c.toNat ≤ 102)

/-- Drop an optional leading 0x or 0X marker, as the hex decoder does. -/
def stripHexHead : List Char → List Char
  | '0' :: 'x' :: rest => rest
  | '0' :: 'X' :: rest => rest
  | s => s

/-- Decode a list of hex digit characters two at a time into bytes; fails on
odd length or on a character that is not a hex digit. -/
def hexPairs : List Char → Option Bytes
  | [] => some []
  | [_] => none
  | c1 :: c2 :: rest => do
    let hi ← hexDigitVal c1
    let lo ← hexDigitVal c2
    let tl ← hexPairs rest
    pure ((16 * hi + lo) :: tl)

/-- hex::decode - strips an optional 0x marker, then decodes hex pairs. -/
def hexDecode (s : List Char) : Option Bytes :=
  hexPairs (stripHexHead s)

/-- hex::encode preceded by the literal 0x marker, exactly as the
serializers build the string (format "0x{}" with lowercase hex). -/
def hexEncode (b : Bytes) : List Char :=
  '0' :: 'x' :: b.flatMap (fun x => [hexDigitLower (x / 16), hexDigitLower (x % 16)])

/- ### Shallow serde data model -/

/-- A serialized value in the serde data model: a string (serialize_str) or
a raw byte sequence (serialize_bytes). -/
inductive CodedValue
  | str (s : List Char)
  | bytes (b : Bytes)
deriving DecidableEq

/-- Decode-side error causes surfaced through serde's custom errors. -/
inductive DeserErr
  | invalidType
  | fromHex
  | fromBase64
  | decompressionFailed
deriving DecidableEq

/-- Result of running a deserializer: a value, a returned error, or a Rust
panic (modelled separately from returned errors). -/
inductive DeserResult
  | ok (b : Bytes)
  | err (e : DeserErr)
  | crashed
deriving DecidableEq

/-- String::deserialize - succeeds only when the serialized value is a
string; a byte-sequence value yields an invalid-type error. -/
def stringDeserialize : CodedValue → Except DeserErr (List Char)
  | .str s => .ok s
  | .bytes _ => .error .invalidType

/- ### fixed_hex_ser and vec_u8_hex (ser.rs lines 9-61) -/

/-- fixed_hex_ser serialize: the string 0x followed by lowercase hex. -/
def fixedHexSerialize (b : Bytes) : CodedValue :=
  .str (hexEncode b)

/-- fixed_hex_ser deserialize: reads a string, hex-decodes it, then copies
the decoded bytes into a fixed-size array with copy_from_slice, which
panics (crashed) when the decoded length differs from the expected size. -/
def fixedHexDeserialize (size : Nat) (v : CodedValue) : DeserResult :=
  match stringDeserialize v with
  | .error e => .err e
  | .ok s =>
    match hexDecode s with
    | none => .err .fromHex
    | some bytes => if bytes.length = size then .ok bytes else .crashed

/-- vec_u8_hex serialize: same textual form, over a variable-length vector. -/
def vecU8HexSerialize (b : Bytes) : CodedValue :=
  .str (hexEncode b)

/-- vec_u8_hex deserialize: reads a string and hex-decodes it, with no
length constraint. -/
def vecU8HexDeserialize (v : CodedValue) : DeserResult :=
  match stringDeserialize v with
  | .error e => .err e
  | .ok s =>
    match hexDecode s with
    | none => .err .fromHex
    | some bytes => .ok bytes

/- ### Base64 (base64::prelude::BASE64_STANDARD, with padding) -/

/-- The standard base64 alphabet. -/
def base64Chars : List Char :=
  ['A','B','C','D','E','F','G','H','I','J','K','L','M','N','O','P','Q','R',
   'S','T','U','V','W','X','Y','Z','a','b','c','d','e','f','g','h','i','j',
   'k','l','m','n','o','p','q','r','s','t','u','v','w','x','y','z','0','1',
   '2','3','4','5','6','7','8','9','+','/']

/-- Alphabet character for a 6-bit value. -/
def b64CharAt (i : Nat) : Char :=
  base64Chars.getD i 'A'

/-- 6-bit value of an alphabet character, none for anything else. -/
def b64CharVal (c : Char) : Option Nat :=
  base64Chars.findIdx? (fun d => d = c)

/-- Standard base64 encoding with padding, three input bytes per four
output characters. -/
def base64Encode : Bytes → List Char
  | [] => []
  | [a] => [b64CharAt (a / 4), b64CharAt (a % 4 * 16), '=', '=']
  | [a, b] => [b64CharAt (a / 4), b64CharAt (a % 4 * 16 + b / 16),
               b64CharAt (b % 16 * 4), '=']
  | a :: b :: c :: rest =>
    b64CharAt (a / 4) :: b64CharAt (a % 4 * 16 + b / 16) ::
      b64CharAt (b % 16 * 4 + c / 64) :: b64CharAt (c % 64) ::
        base64Encode rest

/-- Standard strict base64 decoding with canonical padding, rejecting
characters outside the alphabet and non-zero trailing bits. -/
def base64Decode : List Char → Option Bytes
  | [] => some []
  | [c1, c2, '=', '='] => do
    let v1 ← b64CharVal c1
    let v2 ← b64CharVal c2
    if v2 % 16 = 0 then pure [v1 * 4 + v2 / 16] else none
  | [c1, c2, c3, '='] => do
    let v1 ← b64CharVal c1
    let v2 ← b64CharVal c2
    let v3 ← b64CharVal c3
    if v3 % 4 = 0 then pure [v1 * 4 + v2 / 16, v2 % 16 * 16 + v3 / 4]
    else none
  | c1 :: c2 :: c3 :: c4 :: rest => do
    let v1 ← b64CharVal c1
    let v2 ← b64CharVal c2
    let v3 ← b64CharVal c3
    let v4 ← b64CharVal c4
    let tl ← base64Decode rest
    pure ((v1 * 4 + v2 / 16) :: (v2 % 16 * 16 + v3 / 4) :: (v3 % 4 * 64 + v4) :: tl)
  | _ => none

/-- ASCII bytes of a character list (str::as_bytes on base64 output). -/
def charsToBytes (s : List Char) : Bytes :=
  s.map Char.toNat

/- ### Zlib wrappers (ser.rs lines 103-115) -/

/-- compress_bytes: feeds the whole buffer to the zlib encoder (write_all)
and finishes the stream. The zlib stream codec itself is the external
flate2 collaborator, passed as the function comp. -/
def compressBytes (comp : Bytes → Bytes) (decompressedBytes : Bytes) : Bytes :=
  comp decompressedBytes

/-- decompress_bytes: reads the zlib decoder over the whole buffer to the
end (read_to_end); the external decoder decomp may fail on a corrupt
stream. -/
def decompressBytes (decomp : Bytes → Option Bytes) (compressedBytes : Bytes) :
    Option Bytes :=
  decomp compressedBytes

/- ### fixed_base64_ser (ser.rs lines 63-101) -/

/-- fixed_base64_ser serialize: base64-encode the buffer, zlib-compress the
base64 text, and emit the compressed bytes as a raw byte-sequence value
(serialize_bytes). -/
def fixedBase64Serialize (comp : Bytes → Bytes) (b : Bytes) : CodedValue :=
  .bytes (compressBytes comp (charsToBytes (base64Encode b)))

/-- fixed_base64_ser deserialize: reads a string, base64-decodes it, then
zlib-decompresses the result, then copies into a fixed-size array with
copy_from_slice, which panics (crashed) on a length mismatch. -/
def fixedBase64Deserialize (size : Nat) (decomp : Bytes → Option Bytes)
    (v : CodedValue) : DeserResult :=
  match stringDeserialize v with
  | .error e => .err e
  | .ok s =>
    match base64Decode s with
    | none => .err .fromBase64
    | some decoded =>
      match decompressBytes decomp decoded with
      | none => .err .decompressionFailed
      | some bytes => if bytes.length = size then .ok bytes else .crashed

/- ### Fixed addresses and creation calldata (evm.rs lines 16-25, 70-78) -/

/-- The address of the deployed MIPS VM on the in-memory EVM. -/
def MIPS_ADDR : Bytes :=
  [0, 0, 0, 0, 0, 0, 0, 0, 0, 0, 0, 0, 0, 0, 0, 0, 0, 0, 0xC0, 0xDE]

/-- The address of the deployed PreimageOracle on the in-memory EVM. -/
def PREIMAGE_ORACLE_ADDR : Bytes :=
  [0, 0, 0, 0, 0, 0, 0, 0, 0, 0, 0, 0, 0, 0, 0, 0, 0x42, 0x4F, 0x4F, 0x4B]

/-- The zero address used as the funded sentinel caller. -/
def zeroAddress : Bytes :=
  List.replicate 20 0

/-- Address::into_word - a 20-byte address left-padded with 12 zero bytes
into a 32-byte word. -/
def intoWord (addr : Bytes) : Bytes :=
  List.replicate 12 0 ++ addr

/-- The calldata of the MIPS contract-creation call built in try_init: the
creation bytecode with Address::from_slice(MIPS_ADDR).into_word() chained
on the end (evm.rs lines 70-74). -/
def mipsCreationCalldata (creationCode : Bytes) : Bytes :=
  creationCode ++ intoWord MIPS_ADDR

/- ### In-memory database and execution engine (revm collaborator) -/

/-- Account state tracked by the in-memory backend: balance, nonce and
optional deployed code. Code hashing is internal to the engine and not
observed by any claim. -/
structure AccountInfo where
  balance : Nat
  nonce : Nat
  code : Option Bytes
deriving DecidableEq

/-- The in-memory database: an association list from address to account,
most recent insertion first. -/
abbrev Db := List (Bytes × AccountInfo)

/-- CacheDB::insert_account_info - overwrite the account at an address. -/
def insertAccountInfo (db : Db) (addr : Bytes) (info : AccountInfo) : Db :=
  (addr, info) :: db

/-- Transaction target: contract creation or a call to an address. -/
inductive TransactTo
  | create
  | call (addr : Bytes)
deriving DecidableEq

/-- The transaction environment as populated by fill_tx_env (evm.rs lines
196-209): zero caller, zero gas limit, zero value, given target and
calldata. -/
structure TxEnv where
  caller : Bytes
  gasLimit : Nat
  value : Nat
  transactTo : TransactTo
  data : Bytes
deriving DecidableEq

/-- fill_tx_env - builds the transaction environment for the next engine
invocation. -/
def fillTxEnv (transactTo : TransactTo) (data : Bytes) : TxEnv :=
  { caller := zeroAddress, gasLimit := 0, value := 0,
    transactTo := transactTo, data := data }

/-- A log record emitted by an execution; only its raw data is consumed. -/
structure EvmLog where
  data : Bytes
deriving DecidableEq

/-- The output of a successful execution: call return data, or created
runtime code (with the optional created address). -/
inductive EvmOutput
  | call (data : Bytes)
  | create (code : Bytes) (addr : Option Bytes)
deriving DecidableEq

/-- The result of one engine execution: success with logs and output, or a
non-success result (revert / halt), collapsed since the harness only
pattern-matches on Success. -/
inductive ExecutionResult
  | success (logs : List EvmLog) (output : EvmOutput)
  | nonSuccess
deriving DecidableEq

/-- The revm execution engine, an external collaborator: a deterministic
function from database state and transaction environment to either Ok with
an execution result plus the post-transaction state, or an engine error
(none). transact_ref discards the returned state; transact_commit applies
it. -/
structure Engine where
  exec : Db → TxEnv → Option (ExecutionResult × Db)

/-- EVM::transact_ref - executes without committing: the state part of the
result is discarded. -/
def transactRef (eng : Engine) (db : Db) (tx : TxEnv) : Option ExecutionResult :=
  (eng.exec db tx).map (fun r => r.1)

/-- EVM::transact_commit - executes and commits the resulting state. -/
def transactCommit (eng : Engine) (db : Db) (tx : TxEnv) : Option Db :=
  (eng.exec db tx).map (fun r => r.2)

/-- deploy_contract (evm.rs lines 177-188): installs an account whose code
is the given bytecode, with zero balance and nonce, at the given address. -/
def deployContract (db : Db) (addr : Bytes) (code : Bytes) : Db :=
  insertAccountInfo db addr { balance := 0, nonce := 0, code := some code }

/-- try_init (evm.rs lines 47-96): funds the zero address with u128::MAX,
installs the PreimageOracle deployed bytecode at its fixed address, runs
the MIPS creation bytecode (with the appended constructor word) as a
contract-creation call without committing, and installs the returned
runtime code at the MIPS address; fails if any hex blob is malformed or the
creation call does not succeed with creation output. -/
def tryInit (eng : Engine) (oracleHex mipsCreationHex : List Char) (db0 : Db) :
    Option Db := do
  let db1 := insertAccountInfo db0 zeroAddress
    { balance := 2 ^ 128 - 1, nonce := 0, code := none }
  let oracleCode ← hexDecode oracleHex
  let db2 := deployContract db1 PREIMAGE_ORACLE_ADDR oracleCode
  let creationCode ← hexDecode mipsCreationHex
  match transactRef eng db2 (fillTxEnv .create (mipsCreationCalldata creationCode)) with
  | some (.success _ (.create code _)) => some (deployContract db2 MIPS_ADDR code)
  | _ => none

/- ### Step witness and the witness codec collaborator -/

/-- Modelled from the spec: the StepWitness input bundle (witness.rs is not
among the analyzed sources) - the pre-step machine-state encoding, the
authentication proof blob, and an optional preimage disclosure triple of
key, offset and data. -/
structure StepWitness where
  state : Bytes
  memProof : Bytes
  preimage : Option (Bytes × Nat × Bytes)

/-- Modelled from the spec: has_preimage - whether the witness carries a
non-empty preimage disclosure. -/
def StepWitness.hasPreimage (w : StepWitness) : Bool :=
  w.preimage.isSome

/-- Modelled from the spec: the operations the witness codec module
(witness.rs, outside the analyzed sources) provides to step - the state
fingerprint hash, the fixed state-witness size, and the two ABI calldata
encoders. They are explicit parameters of the model. -/
structure WitnessOps where
  stateHash : Bytes → Bytes
  stateWitnessSize : Nat
  encodePreimageOracleInput : StepWitness → Option Bytes
  encodeStepInput : StepWitness → Bytes

/-- The error causes step can return (each bail! site in evm.rs step). -/
inductive StepErr
  | abiEncodeFail
  | preimageCommitFail
  | witnessDecodeFail (len : Nat)
  | logCount (n : Nat)
  | fingerprintMismatch (output : Bytes) (computed : Bytes)
  | stepCallFail
deriving DecidableEq

/-- The outcome of step: the post-state hash, a returned error, or a Rust
panic (B256::from_slice on non-32-byte return data), modelled separately
from returned errors. -/
inductive StepRes
  | ok (hash : Bytes)
  | err (e : StepErr)
  | crashed
deriving DecidableEq

/-- The validation tail of step (evm.rs lines 147-165): converts the return
data with B256::from_slice (panics unless 32 bytes), requires exactly one
log, decodes the log data as a StateWitness (returned error on wrong
length), and compares its fingerprint byte-for-byte against the returned
hash, reporting both fingerprints on a mismatch. -/
def validateStep (ops : WitnessOps) (db : Db) (logs : List EvmLog)
    (output : Bytes) : Db × StepRes :=
  if output.length = 32 then
    match logs with
    | [l] =>
      if l.data.length = ops.stateWitnessSize then
        if ops.stateHash l.data = output then (db, .ok output)
        else (db, .err (.fingerprintMismatch output (ops.stateHash l.data)))
      else (db, .err (.witnessDecodeFail l.data.length))
    | ls => (db, .err (.logCount ls.length))
  else (db, .crashed)

/-- The step call phase of step (evm.rs lines 131-168): builds the step
calldata, executes the call against the MIPS address without committing
(transact_ref), and validates the result; every non-success engine outcome
is the single step-call failure error. -/
def stepInner (eng : Engine) (ops : WitnessOps) (db : Db) (w : StepWitness) :
    Db × StepRes :=
  match transactRef eng db (fillTxEnv (.call MIPS_ADDR) (ops.encodeStepInput w)) with
  | some (.success logs (.call output)) => validateStep ops db logs output
  | _ => (db, .err .stepCallFail)

/-- step (evm.rs lines 107-169): when the witness has a preimage
disclosure, ABI-encodes the preimage oracle input (returned error when the
encoding fails) and commits a call to the preimage oracle address
(transact_commit), then runs the step call phase on the committed state;
without a disclosure the step call phase runs directly on the given state. -/
def step (eng : Engine) (ops : WitnessOps) (db : Db) (w : StepWitness) :
    Db × StepRes :=
  if w.hasPreimage then
    match ops.encodePreimageOracleInput w with
    | none => (db, .err .abiEncodeFail)
    | some input =>
      match transactCommit eng db (fillTxEnv (.call PREIMAGE_ORACLE_ADDR) input) with
      | none => (db, .err .preimageCommitFail)
      | some db2 => stepInner eng ops db2 w
  else stepInner eng ops db w

/- ### Concrete fixtures used to exercise the model -/

/-- A concrete witness-codec instance: one-byte state witnesses whose
fingerprint is the 32-byte zero word. -/
def testOps : WitnessOps where
  stateHash := fun _ => List.replicate 32 0
  stateWitnessSize := 1
  encodePreimageOracleInput := fun _ => some [7]
  encodeStepInput := fun _ => []

/-- A concrete engine: creation calls return the runtime code [1]; plain
calls succeed with one log carrying the byte 5 and return the 32-byte zero
word; no call changes the database. -/
def testEngine : Engine where
  exec := fun db tx =>
    match tx.transactTo with
    | .create => some (.success [] (.create [1] none), db)
    | .call _ => some (.success [EvmLog.mk [5]] (.call (List.replicate 32 0)), db)

/-- A concrete engine whose calls succeed with no logs and empty return
data, as a call to an empty account does. -/
def badEngine : Engine where
  exec := fun db _ => some (.success [] (.call []), db)

/-- A step witness with no preimage disclosure. -/
def emptyWitness : StepWitness :=
  { state := [], memProof := [], preimage := none }

/-- A step witness carrying a preimage disclosure. -/
def preimageWitness : StepWitness :=
  { state := [], memProof := [], preimage := some (List.replicate 32 1, 0, [9]) }

/-- The database produced by initializing the test engine. -/
def dbInit : Db :=
  (tryInit testEngine ['0', 'x'] ['0', 'x'] []).getD []

/- ### Helper lemmas -/

/-- Encoding then decoding one hex digit value below 16 is the identity. -/
theorem hexDigitVal_hexDigitLower : ∀ n < 16, hexDigitVal (hexDigitLower n) = some n := by
  decide

/-- The encoder's digit characters are lowercase hex digits. -/
theorem isLowerHexDigit_hexDigitLower : ∀ n < 16, isLowerHexDigit (hexDigitLower n) = true := by
  decide

/-- Decoding the pairwise hex encoding of a byte buffer recovers it. -/
theorem hexPairs_hexEncode (b : Bytes) (hb : ∀ x ∈ b, x < 256) :
    hexPairs (b.flatMap fun x => [hexDigitLower (x / 16), hexDigitLower (x % 16)]) =
      some b := by
  induction b with
  | nil => rfl
  | cons a t ih =>
    have ha : a < 256 := hb a (List.mem_cons_self a t)
    have h1 : a / 16 < 16 := by omega
    have h2 : a % 16 < 16 := by omega
    have ht : ∀ x ∈ t, x < 256 := fun x hx => hb x (List.mem_cons_of_mem a hx)
    simp only [List.flatMap_cons, List.cons_append, List.nil_append]
    simp only [hexPairs, hexDigitVal_hexDigitLower _ h1,
      hexDigitVal_hexDigitLower _ h2, ih ht, Option.bind_some, Option.some_bind]
    have hda : 16 * (a / 16) + a % 16 = a := by omega
    show some ((16 * (a / 16) + a % 16) :: t) = some (a :: t)
    rw [hda]

/-- Every character consumed by a successful pairwise hex decode is a hex
digit. -/
theorem hexPairs_chars : ∀ (s : List Char) (b : Bytes), hexPairs s = some b →
    ∀ c ∈ s, (hexDigitVal c).isSome = true
  | [], _, _, _, hc => by cases hc
  | [c1], b, hp, c, hc => by simp [hexPairs] at hp
  | c1 :: c2 :: rest, b, hp, c, hc => by
    simp only [hexPairs, Option.bind_eq_bind] at hp
    cases hv1 : hexDigitVal c1 with
    | none => rw [hv1] at hp; simp at hp
    | some v1 =>
      cases hv2 : hexDigitVal c2 with
      | none => rw [hv1, hv2] at hp; simp at hp
      | some v2 =>
        cases hrest : hexPairs rest with
        | none => rw [hv1, hv2, hrest] at hp; simp at hp
        | some tb =>
          simp only [List.mem_cons] at hc
          rcases hc with rfl | rfl | hc
          · rw [hv1]; rfl
          · rw [hv2]; rfl
          · exact hexPairs_chars rest tb hrest c hc

/-- validateStep never changes the database component. -/
theorem validateStep_fst (ops : WitnessOps) (db : Db) (logs : List EvmLog)
    (output : Bytes) : (validateStep ops db logs output).1 = db := by
  unfold validateStep
  repeat' split
  all_goals rfl

/-- stepInner never changes the database component: the step call is a
dry run. -/
theorem stepInner_fst (eng : Engine) (ops : WitnessOps) (db : Db)
    (w : StepWitness) : (stepInner eng ops db w).1 = db := by
  unfold stepInner
  split
  · exact validateStep_fst ..
  · rfl

/-- Inversion of a successful validation. -/
theorem validateStep_ok_inv {ops : WitnessOps} {db : Db} {logs : List EvmLog}
    {output : Bytes} {db' : Db} {h : Bytes}
    (he : validateStep ops db logs output = (db', StepRes.ok h)) :
    db' = db ∧ output = h ∧ h.length = 32 ∧
      ∃ l, logs = [l] ∧ l.data.length = ops.stateWitnessSize ∧
        ops.stateHash l.data = h := by
  unfold validateStep at he
  split at he
  case isTrue hlen =>
    split at he
    case _ l =>
      split at he
      case isTrue hsz =>
        split at he
        case isTrue hh =>
          injection he with e1 e2
          injection e2 with e3
          subst e3
          exact ⟨e1.symm, rfl, hlen, l, rfl, hsz, hh⟩
        case isFalse hh => simp at he
      case isFalse hsz => simp at he
    case _ ls hne => simp at he
  case isFalse hlen => simp at he

/-- Inversion of a successful step call phase. -/
theorem stepInner_ok_inv {eng : Engine} {ops : WitnessOps} {db : Db}
    {w : StepWitness} {db' : Db} {h : Bytes}
    (he : stepInner eng ops db w = (db', StepRes.ok h)) :
    db' = db ∧ h.length = 32 ∧
      ∃ l, transactRef eng db
          (fillTxEnv (TransactTo.call MIPS_ADDR) (ops.encodeStepInput w)) =
          some (ExecutionResult.success [l] (EvmOutput.call h)) ∧
        l.data.length = ops.stateWitnessSize ∧ ops.stateHash l.data = h := by
  unfold stepInner at he
  split at he
  case _ logs output heq =>
    obtain ⟨hdb, hout, hlen, l, hl, hsz, hh⟩ := validateStep_ok_inv he
    subst hl
    subst hout
    exact ⟨hdb, hlen, l, heq, hsz, hh⟩
  case _ => simp at he

/-- Inversion of step: every run factors through the step call phase, on
either the given database or the preimage-committed one. -/
theorem step_ok_inv {eng : Engine} {ops : WitnessOps} {db : Db}
    {w : StepWitness} {db' : Db} {h : Bytes}
    (he : step eng ops db w = (db', StepRes.ok h)) :
    ∃ dbp, stepInner eng ops dbp w = (db', StepRes.ok h) ∧
      (dbp = db ∨ (w.hasPreimage = true ∧ ∃ inp,
        ops.encodePreimageOracleInput w = some inp ∧
        transactCommit eng db (fillTxEnv (TransactTo.call PREIMAGE_ORACLE_ADDR) inp) =
          some dbp)) := by
  unfold step at he
  split at he
  case isTrue hpre =>
    split at he
    case _ => simp at he
    case _ inp hinp =>
      split at he
      case _ => simp at he
      case _ db2 hdb2 => exact ⟨db2, he, Or.inr ⟨hpre, inp, hinp, hdb2⟩⟩
  case isFalse hpre => exact ⟨db, he, Or.inl rfl⟩

/- ### Claim theorems -/

/-- Claim C1 (code bug): the compressed-form codec does not round-trip. The
serializer emits the raw zlib-compressed bytes of the base64 text as a
byte-sequence value, while the deserializer reads a string, base64-decodes
it and only then decompresses; so for every compressor, every expected size
and every buffer, decoding the serializer's output fails with an
invalid-type error - in particular for the 32-byte zero buffer - instead of
yielding the buffer back. -/
theorem compressed_form_roundtrip_fails :
    (∀ (comp : Bytes → Bytes) (decomp : Bytes → Option Bytes) (size : Nat) (b : Bytes),
      fixedBase64Deserialize size decomp (fixedBase64Serialize comp b) =
        DeserResult.err DeserErr.invalidType) ∧
    fixedBase64Deserialize 32 some (fixedBase64Serialize id (List.replicate 32 0)) ≠
      DeserResult.ok (List.replicate 32 0) := by
  refine ⟨fun comp decomp size b => rfl, by decide⟩

/-- Claim C2 (code bug): a decoded length differing from the fixed expected
size does not produce a returned size error: copy_from_slice panics. The
hex deserializer on the string 0x00 against size 32, and the compressed
deserializer on an input decompressing to 0 bytes against size 32, both
crash, and a crash is not a returned error. -/
theorem fixed_size_wrong_length_panics :
    fixedHexDeserialize 32 (CodedValue.str ['0', 'x', '0', '0']) = DeserResult.crashed ∧
    fixedBase64Deserialize 32 some (CodedValue.str []) = DeserResult.crashed ∧
    (∀ e : DeserErr, DeserResult.crashed ≠ DeserResult.err e) := by
  refine ⟨by decide, by decide, fun e h => by cases h⟩

/-- Claim C3 (code bug): the constructor argument appended to the MIPS
creation bytecode in try_init is the MIPS contract's own fixed address
left-padded to 32 bytes, not the preimage oracle's: the appended word is
intoWord MIPS_ADDR, which differs from intoWord PREIMAGE_ORACLE_ADDR. -/
theorem creation_calldata_uses_mips_addr :
    (∀ creationCode : Bytes,
      mipsCreationCalldata creationCode = creationCode ++ intoWord MIPS_ADDR) ∧
    mipsCreationCalldata [] = intoWord MIPS_ADDR ∧
    (intoWord MIPS_ADDR).length = 32 ∧
    intoWord MIPS_ADDR ≠ intoWord PREIMAGE_ORACLE_ADDR := by
  refine ⟨fun creationCode => rfl, by decide, by decide, by decide⟩

/-- Claim C4: step succeeds only when the step call succeeded with exactly
one log whose data has the expected state-witness length and fingerprints
to the call's 32-byte return value, which is the value returned; and on a
fingerprint mismatch the validation returns an error carrying both the
declared return value and the recomputed fingerprint. -/
theorem step_validates_fingerprint :
    (∀ (eng : Engine) (ops : WitnessOps) (db : Db) (w : StepWitness)
       (db' : Db) (h : Bytes),
      step eng ops db w = (db', StepRes.ok h) →
      h.length = 32 ∧ ∃ dbp l,
        transactRef eng dbp
            (fillTxEnv (TransactTo.call MIPS_ADDR) (ops.encodeStepInput w)) =
          some (ExecutionResult.success [l] (EvmOutput.call h)) ∧
        l.data.length = ops.stateWitnessSize ∧ ops.stateHash l.data = h) ∧
    (∀ (ops : WitnessOps) (db : Db) (l : EvmLog) (output : Bytes),
      output.length = 32 → l.data.length = ops.stateWitnessSize →
      ops.stateHash l.data ≠ output →
      validateStep ops db [l] output =
        (db, StepRes.err (StepErr.fingerprintMismatch output (ops.stateHash l.data)))) := by
  constructor
  · intro eng ops db w db' h he
    obtain ⟨dbp, hi, _⟩ := step_ok_inv he
    obtain ⟨_, hlen, l, ht, hsz, hh⟩ := stepInner_ok_inv hi
    exact ⟨hlen, dbp, l, ht, hsz, hh⟩
  · intro ops db l output h32 hsz hne
    simp [validateStep, h32, hsz, hne]

/-- Witness for claim C4 at a concrete mismatching input. -/
theorem step_validates_fingerprint_witness :
    validateStep testOps [] [EvmLog.mk [9]] (List.replicate 32 1) =
      ([], StepRes.err (StepErr.fingerprintMismatch (List.replicate 32 1)
        (List.replicate 32 0))) :=
  step_validates_fingerprint.2 testOps [] (EvmLog.mk [9]) (List.replicate 32 1)
    (by decide) (by decide) (by decide)

/-- Claim C5 counterexample: a step call that succeeds with zero logs and
empty return data makes step crash in B256::from_slice before the log-count
check, rather than return an error reporting the observed log count. -/
theorem step_log_count_counterexample :
    (step badEngine testOps [] emptyWitness).2 = StepRes.crashed ∧
    StepRes.crashed ≠ StepRes.err (StepErr.logCount 0) ∧
    StepRes.crashed ≠ StepRes.ok (List.replicate 32 0) := by
  refine ⟨by decide, by decide, by decide⟩

/-- Claim C5 as amended: when the step call's return data is 32 bytes, a
log count other than exactly one yields the returned protocol-violation
error carrying the observed count; and in no case is a wrong log count
treated as success, since a successful step requires the call to have
produced exactly one log. -/
theorem step_log_count_protocol_violation :
    (∀ (ops : WitnessOps) (db : Db) (logs : List EvmLog) (output : Bytes),
      output.length = 32 → logs.length ≠ 1 →
      validateStep ops db logs output =
        (db, StepRes.err (StepErr.logCount logs.length))) ∧
    (∀ (eng : Engine) (ops : WitnessOps) (db : Db) (w : StepWitness)
       (db' : Db) (h : Bytes),
      step eng ops db w = (db', StepRes.ok h) →
      ∃ dbp l, transactRef eng dbp
          (fillTxEnv (TransactTo.call MIPS_ADDR) (ops.encodeStepInput w)) =
        some (ExecutionResult.success [l] (EvmOutput.call h))) := by
  constructor
  · intro ops db logs output h32 hn
    unfold validateStep
    rw [if_pos h32]
    cases logs with
    | nil => rfl
    | cons a t =>
      cases t with
      | nil => exact absurd rfl hn
      | cons a2 t2 => rfl
  · intro eng ops db w db' h he
    obtain ⟨dbp, hi, _⟩ := step_ok_inv he
    obtain ⟨_, _, l, ht, _, _⟩ := stepInner_ok_inv hi
    exact ⟨dbp, l, ht⟩

/-- Witness for claim C5 (amended) at a concrete zero-log input with a
32-byte return value. -/
theorem step_log_count_protocol_violation_witness :
    validateStep testOps [] [] (List.replicate 32 0) =
      ([], StepRes.err (StepErr.logCount 0)) :=
  step_log_count_protocol_violation.1 testOps [] [] (List.replicate 32 0)
    (by decide) (by decide)

/-- Claim C6: a witness without a preimage disclosure never issues the
preimage-oracle call - the run equals the plain step call phase, leaves the
database untouched, and is unaffected by arbitrary changes to the engine's
behavior on calls to the preimage-oracle address - while a witness with a
disclosure (whose encoding succeeds) issues exactly one committing oracle
call first, and the step call phase then runs on the committed database. -/
theorem step_preimage_gating
    (e1 e2 : Engine) (ops : WitnessOps) (db : Db) (w : StepWitness)
    (hagree : ∀ (d : Db) (tx : TxEnv),
      tx.transactTo ≠ TransactTo.call PREIMAGE_ORACLE_ADDR → e1.exec d tx = e2.exec d tx) :
    (w.hasPreimage = false →
      step e1 ops db w = step e2 ops db w ∧
      step e1 ops db w = stepInner e1 ops db w ∧
      (step e1 ops db w).1 = db) ∧
    (w.hasPreimage = true → ∀ inp, ops.encodePreimageOracleInput w = some inp →
      step e1 ops db w =
        match transactCommit e1 db (fillTxEnv (TransactTo.call PREIMAGE_ORACLE_ADDR) inp) with
        | none => (db, StepRes.err StepErr.preimageCommitFail)
        | some db2 => stepInner e1 ops db2 w) := by
  have hmips : ∀ (d : Db) (inputData : Bytes),
      transactRef e1 d (fillTxEnv (TransactTo.call MIPS_ADDR) inputData) =
        transactRef e2 d (fillTxEnv (TransactTo.call MIPS_ADDR) inputData) := by
    intro d inputData
    unfold transactRef
    rw [hagree]
    intro hc
    exact absurd (TransactTo.call.inj hc) (by decide)
  constructor
  · intro hpre
    have hs1 : step e1 ops db w = stepInner e1 ops db w := by
      unfold step
      rw [hpre]
      rfl
    have hs2 : step e2 ops db w = stepInner e2 ops db w := by
      unfold step
      rw [hpre]
      rfl
    have hin : stepInner e1 ops db w = stepInner e2 ops db w := by
      unfold stepInner
      rw [hmips]
    exact ⟨hs1.trans (hin.trans hs2.symm), hs1, hs1 ▸ stepInner_fst ..⟩
  · intro hpre inp hinp
    unfold step
    rw [hpre, hinp]
    rfl

/-- Witness for claim C6 at a concrete disclosure-free witness (both
conjuncts of its conclusion exercised at the test engine). -/
theorem step_preimage_gating_witness :
    step testEngine testOps [] emptyWitness = stepInner testEngine testOps [] emptyWitness ∧
    (step testEngine testOps [] emptyWitness).1 = ([] : Db) :=
  ⟨((step_preimage_gating testEngine testEngine testOps [] emptyWitness
      (fun _ _ _ => rfl)).1 rfl).2.1,
   ((step_preimage_gating testEngine testEngine testOps [] emptyWitness
      (fun _ _ _ => rfl)).1 rfl).2.2⟩

/-- Claim C7: the step call commits nothing: whatever step returns, the
final database is either exactly the input database or exactly the result
of the single committed preimage-oracle call - no state from the step call
itself, and no partial state on failure, is ever left in the environment. -/
theorem step_commits_only_preimage
    (eng : Engine) (ops : WitnessOps) (db : Db) (w : StepWitness)
    (db' : Db) (r : StepRes) (he : step eng ops db w = (db', r)) :
    db' = db ∨ (w.hasPreimage = true ∧ ∃ inp,
      ops.encodePreimageOracleInput w = some inp ∧
      transactCommit eng db (fillTxEnv (TransactTo.call PREIMAGE_ORACLE_ADDR) inp) =
        some db') := by
  unfold step at he
  split at he
  case isTrue hpre =>
    split at he
    case _ =>
      injection he with e1 e2
      exact Or.inl e1.symm
    case _ inp hinp =>
      split at he
      case _ =>
        injection he with e1 e2
        exact Or.inl e1.symm
      case _ db2 hdb2 =>
        have hfst : db' = db2 := by
          have := congrArg Prod.fst he
          rw [stepInner_fst] at this
          exact this.symm
        subst hfst
        exact Or.inr ⟨hpre, inp, hinp, hdb2⟩
  case isFalse hpre =>
    have := congrArg Prod.fst he
    rw [stepInner_fst] at this
    exact Or.inl this.symm

/-- Witness for claim C7 at a concrete run of the test engine. -/
theorem step_commits_only_preimage_witness :
    ([] : Db) = ([] : Db) ∨ (emptyWitness.hasPreimage = true ∧ ∃ inp,
      testOps.encodePreimageOracleInput emptyWitness = some inp ∧
      transactCommit testEngine []
          (fillTxEnv (TransactTo.call PREIMAGE_ORACLE_ADDR) inp) = some []) :=
  step_commits_only_preimage testEngine testOps [] emptyWitness []
    (StepRes.ok (List.replicate 32 0)) (by decide)

/-- Claim C8: the hex serializers produce exactly the 0x marker followed by
lowercase hex digits, fixed-size and variable-length decoding of that form
recovers the buffer exactly, and a successful hex decode only ever consumes
hex-digit characters (anything else is rejected). -/
theorem hex_codec_roundtrip :
    (∀ b : Bytes, (∀ x ∈ b, x < 256) →
      ∃ tl, fixedHexSerialize b = CodedValue.str ('0' :: 'x' :: tl) ∧
        vecU8HexSerialize b = CodedValue.str ('0' :: 'x' :: tl) ∧
        ∀ c ∈ tl, isLowerHexDigit c = true) ∧
    (∀ (size : Nat) (b : Bytes), b.length = size → (∀ x ∈ b, x < 256) →
      fixedHexDeserialize size (fixedHexSerialize b) = DeserResult.ok b) ∧
    (∀ b : Bytes, (∀ x ∈ b, x < 256) →
      vecU8HexDeserialize (vecU8HexSerialize b) = DeserResult.ok b) ∧
    (∀ (s : List Char) (b : Bytes), hexDecode s = some b →
      ∀ c ∈ stripHexHead s, (hexDigitVal c).isSome = true) := by
  refine ⟨?_, ?_, ?_, ?_⟩
  · intro b hb
    refine ⟨b.flatMap fun x => [hexDigitLower (x / 16), hexDigitLower (x % 16)],
      rfl, rfl, ?_⟩
    intro c hc
    rw [List.mem_flatMap] at hc
    obtain ⟨x, hx, hcx⟩ := hc
    have hx256 : x < 256 := hb x hx
    simp only [List.mem_cons, List.not_mem_nil, or_false] at hcx
    rcases hcx with rfl | rfl
    · exact isLowerHexDigit_hexDigitLower _ (by omega)
    · exact isLowerHexDigit_hexDigitLower _ (by omega)
  · intro size b hlen hb
    simp [fixedHexDeserialize, fixedHexSerialize, stringDeserialize, hexDecode,
      hexEncode, stripHexHead, hexPairs_hexEncode b hb, hlen]
  · intro b hb
    simp [vecU8HexDeserialize, vecU8HexSerialize, stringDeserialize, hexDecode,
      hexEncode, stripHexHead, hexPairs_hexEncode b hb]
  · intro s b hp
    exact hexPairs_chars (stripHexHead s) b hp

/-- Witness for claim C8 at concrete buffers. -/
theorem hex_codec_roundtrip_witness :
    fixedHexDeserialize 2 (fixedHexSerialize [171, 205]) = DeserResult.ok [171, 205] ∧
    vecU8HexDeserialize (vecU8HexSerialize [255]) = DeserResult.ok [255] :=
  ⟨hex_codec_roundtrip.2.1 2 [171, 205] (by decide) (by decide),
   hex_codec_roundtrip.2.2.1 [255] (by decide)⟩

/-- Claim C9: step is a deterministic function of the initialized
environment and the witness: two runs over environments initialized from
identical inputs that both succeed yield identical fingerprints. -/
theorem step_run_deterministic
    (eng : Engine) (ops : WitnessOps) (oracleHex mipsCreationHex : List Char)
    (db0 : Db) (w : StepWitness) (d1 d2 : Db)
    (h1 : tryInit eng oracleHex mipsCreationHex db0 = some d1)
    (h2 : tryInit eng oracleHex mipsCreationHex db0 = some d2)
    (r1 r2 : Bytes)
    (hs1 : (step eng ops d1 w).2 = StepRes.ok r1)
    (hs2 : (step eng ops d2 w).2 = StepRes.ok r2) : r1 = r2 := by
  rw [h1] at h2
  injection h2 with hd
  subst hd
  rw [hs1] at hs2
  exact StepRes.ok.inj hs2

/-- Witness for claim C9 at the concrete test engine, initialized twice
from the same inputs. -/
theorem step_run_deterministic_witness :
    List.replicate 32 0 = List.replicate 32 0 :=
  step_run_deterministic testEngine testOps ['0', 'x'] ['0', 'x'] [] emptyWitness
    dbInit dbInit (by decide) (by decide)
    (List.replicate 32 0) (List.replicate 32 0) (by decide) (by decide)

/-- Claim C10: the raw zlib helper pair is a true inverse pair: the
compress wrapper feeds the whole buffer to the stream compressor and the
decompress wrapper reads it back to the end, so under the zlib codec's
specified observable behavior (inflating a deflated stream recovers the
input) decompress_bytes of compress_bytes is the identity. -/
theorem compress_decompress_inverse
    (comp : Bytes → Bytes) (decomp : Bytes → Option Bytes)
    (hzlib : ∀ x : Bytes, decomp (comp x) = some x) (b : Bytes) :
    decompressBytes decomp (compressBytes comp b) = some b :=
  hzlib b

/-- Witness for claim C10 with an inverse codec pair at a concrete buffer. -/
theorem compress_decompress_inverse_witness :
    decompressBytes some (compressBytes id [1, 2, 3]) = some [1, 2, 3] :=
  compress_decompress_inverse id some (fun _ => rfl) [1, 2, 3]
